import Mathlib

/-!
Verification of the laterna_api token codec / authenticator and cart/checkout
operations, as a shallow embedding of the Python source.

Sources embedded:
- `src/controllers/auth_login.py` (`auth_login`, lines 66-77): token encoding.
- `src/controllers/cart_api.py` (`_validate_jwt`, lines 27-92): token decoding
  and validation; (`add_to_cart`, lines 146-170): cart find-or-create and
  line merge.
- `src/models/sale_order.py` (`create_cart`, `add_product_to_cart`,
  `update_cart_line`).
- `src/controllers/api_shop_checkout.py` (`confirm_checkout`, lines 343-389)
  and `src/controllers/api_shop_checkout_old.py` (`api_confirm_checkout`,
  lines 131-157).

Python byte strings are modelled as `List Nat` (each element a byte value),
Python strings as `List Char`, integers as `Nat` where the source only ever
holds non-negative values (unix timestamps, ids), and monetary/quantity
floats as `Int` (the embedded code only copies and adds them).
-/

/-! ## Base64url (Python `base64.urlsafe_b64encode` / `urlsafe_b64decode`)

The login controller produces segments with `base64.urlsafe_b64encode(...)
.decode().rstrip('=')`; the validator re-pads with
`s + '=' * ((-len(s) % 4) if len(s) % 4 else 0)` and calls
`base64.urlsafe_b64decode`. -/

/-- The urlsafe base64 alphabet (RFC 4648 `-`/`_` variant), as used by
`base64.urlsafe_b64encode`. -/
def b64Alphabet : List Char :=
  ['A','B','C','D','E','F','G','H','I','J','K','L','M','N','O','P','Q','R','S','T',
   'U','V','W','X','Y','Z','a','b','c','d','e','f','g','h','i','j','k','l','m','n',
   'o','p','q','r','s','t','u','v','w','x','y','z','0','1','2','3','4','5','6','7',
   '8','9','-','_']

/-- Character for a 6-bit group. -/
def b64Char (n : Nat) : Char := b64Alphabet.getD n 'A'

/-- Index of a character in the urlsafe alphabet (`none` for foreign
characters, which `urlsafe_b64decode` treats as errors on our domain). -/
def b64Index (c : Char) : Option Nat := b64Alphabet.indexOf? c

/-- `base64.urlsafe_b64encode` on a byte string: 3-byte groups become 4
characters; a trailing 1- or 2-byte group is padded with `=`. -/
def b64EncodeBytes : List Nat → List Char
  | [] => []
  | [b0] => [b64Char (b0 / 4), b64Char (b0 % 4 * 16), '=', '=']
  | [b0, b1] => [b64Char (b0 / 4), b64Char (b0 % 4 * 16 + b1 / 16), b64Char (b1 % 16 * 4), '=']
  | b0 :: b1 :: b2 :: rest =>
      b64Char (b0 / 4) :: b64Char (b0 % 4 * 16 + b1 / 16) ::
      b64Char (b1 % 16 * 4 + b2 / 64) :: b64Char (b2 % 64) :: b64EncodeBytes rest

/-- `base64.urlsafe_b64decode` on a correctly padded input: 4-character
groups, `=` padding allowed only at the end. Inputs of invalid length or
with foreign characters yield `none` (the `binascii.Error` branch of the
validator). -/
def b64DecodeBytes : List Char → Option (List Nat)
  | [] => some []
  | c0 :: c1 :: c2 :: c3 :: rest =>
      match b64Index c0, b64Index c1 with
      | some i0, some i1 =>
          if c2 = '=' then
            if c3 = '=' ∧ rest = [] then some [i0 * 4 + i1 / 16] else none
          else
            match b64Index c2 with
            | some i2 =>
                if c3 = '=' then
                  if rest = [] then some [i0 * 4 + i1 / 16, i1 % 16 * 16 + i2 / 4] else none
                else
                  match b64Index c3, b64DecodeBytes rest with
                  | some i3, some bs =>
                      some ((i0 * 4 + i1 / 16) :: (i1 % 16 * 16 + i2 / 4) ::
                            (i2 % 4 * 64 + i3) :: bs)
                  | _, _ => none
            | none => none
      | _, _ => none
  | _ => none

/-- Python `.rstrip('=')`. -/
def rstripEq (s : List Char) : List Char := (s.reverse.dropWhile (· == '=')).reverse

/-- The validator's re-padding step
`s + '=' * ((-len(s) % 4) if len(s) % 4 else 0)`. -/
def addPadding (s : List Char) : List Char :=
  if s.length % 4 = 0 then s else s ++ List.replicate (4 - s.length % 4) '='

theorem b64Char_mem_or_default (n : Nat) : b64Char n ∈ b64Alphabet ∨ b64Char n = 'A' := by
  rcases Nat.lt_or_ge n b64Alphabet.length with h | h
  · left
    rw [b64Char, List.getD_eq_getElem?_getD, List.getElem?_eq_getElem h]
    exact List.getElem_mem _
  · right
    rw [b64Char, List.getD_eq_default _ _ h]

theorem b64Char_ne_eq (n : Nat) : b64Char n ≠ '=' := by
  rcases b64Char_mem_or_default n with h | h
  · have hall : ∀ c ∈ b64Alphabet, c ≠ '=' := by decide
    exact hall _ h
  · rw [h]; decide

theorem b64Char_ne_dot (n : Nat) : b64Char n ≠ '.' := by
  rcases b64Char_mem_or_default n with h | h
  · have hall : ∀ c ∈ b64Alphabet, c ≠ '.' := by decide
    exact hall _ h
  · rw [h]; decide

theorem b64Index_b64Char {n : Nat} (h : n < 64) : b64Index (b64Char n) = some n := by
  have hall : ∀ m, m < 64 → b64Index (b64Char m) = some m := by decide
  exact hall n h

/-- Every character of an encoded byte string is an alphabet character
or `=`; in particular never `.`. -/
theorem b64EncodeBytes_ne_dot : ∀ (l : List Nat), ∀ c ∈ b64EncodeBytes l, c ≠ '.' := by
  intro l
  induction l using b64EncodeBytes.induct with
  | case1 =>
      intro c hc
      simp [b64EncodeBytes] at hc
  | case2 b0 =>
      intro c hc
      simp only [b64EncodeBytes, List.mem_cons, List.mem_singleton] at hc
      rcases hc with rfl | rfl | rfl | rfl | h
      · exact b64Char_ne_dot _
      · exact b64Char_ne_dot _
      · decide
      · decide
      · simp at h
  | case3 b0 b1 =>
      intro c hc
      simp only [b64EncodeBytes, List.mem_cons, List.mem_singleton] at hc
      rcases hc with rfl | rfl | rfl | rfl | h
      · exact b64Char_ne_dot _
      · exact b64Char_ne_dot _
      · exact b64Char_ne_dot _
      · decide
      · simp at h
  | case4 b0 b1 b2 rest ih =>
      intro c hc
      simp only [b64EncodeBytes, List.mem_cons] at hc
      rcases hc with rfl | rfl | rfl | rfl | h
      · exact b64Char_ne_dot _
      · exact b64Char_ne_dot _
      · exact b64Char_ne_dot _
      · exact b64Char_ne_dot _
      · exact ih c h

/-- Decoding inverts encoding on genuine byte strings. -/
theorem b64DecodeBytes_b64EncodeBytes :
    ∀ (l : List Nat), (∀ b ∈ l, b < 256) → b64DecodeBytes (b64EncodeBytes l) = some l := by
  intro l
  induction l using b64EncodeBytes.induct with
  | case1 => intro _; rfl
  | case2 b0 =>
      intro hb
      have h0 : b0 < 256 := hb b0 (by simp)
      rw [b64EncodeBytes, b64DecodeBytes,
          b64Index_b64Char (by omega), b64Index_b64Char (by omega)]
      simp only [reduceIte, and_self]
      congr 2
      omega
  | case3 b0 b1 =>
      intro hb
      have h0 : b0 < 256 := hb b0 (by simp)
      have h1 : b1 < 256 := hb b1 (by simp)
      rw [b64EncodeBytes, b64DecodeBytes,
          b64Index_b64Char (h := by omega), b64Index_b64Char (h := by omega)]
      simp only [b64Char_ne_eq, reduceIte,
          b64Index_b64Char (h := show b1 % 16 * 4 < 64 by omega)]
      congr 1
      have e0 : b0 / 4 * 4 + (b0 % 4 * 16 + b1 / 16) / 16 = b0 := by omega
      have e1 : (b0 % 4 * 16 + b1 / 16) % 16 * 16 + b1 % 16 * 4 / 4 = b1 := by omega
      rw [e0, e1]
  | case4 b0 b1 b2 rest ih =>
      intro hb
      have h0 : b0 < 256 := hb b0 (by simp)
      have h1 : b1 < 256 := hb b1 (by simp)
      have h2 : b2 < 256 := hb b2 (by simp)
      have hrest : ∀ b ∈ rest, b < 256 := fun b hbm => hb b (by simp [hbm])
      rw [b64EncodeBytes, b64DecodeBytes,
          b64Index_b64Char (h := by omega), b64Index_b64Char (h := by omega)]
      simp only [b64Char_ne_eq, reduceIte,
          b64Index_b64Char (h := show b1 % 16 * 4 + b2 / 64 < 64 by omega),
          b64Index_b64Char (h := show b2 % 64 < 64 by omega), ih hrest]
      congr 1
      have e0 : b0 / 4 * 4 + (b0 % 4 * 16 + b1 / 16) / 16 = b0 := by omega
      have e1 : (b0 % 4 * 16 + b1 / 16) % 16 * 16 + (b1 % 16 * 4 + b2 / 64) / 4 = b1 := by omega
      have e2 : (b1 % 16 * 4 + b2 / 64) % 4 * 64 + b2 % 64 = b2 := by omega
      rw [e0, e1, e2]

/-- Shape of encoder output: alphabet body followed by 0, 1 or 2 `=`,
total length a multiple of 4. -/
theorem b64EncodeBytes_shape :
    ∀ (l : List Nat), ∃ body k,
      b64EncodeBytes l = body ++ List.replicate k '=' ∧
      (∀ c ∈ body, c ≠ '=') ∧ k ≤ 2 ∧ (body.length + k) % 4 = 0 := by
  intro l
  induction l using b64EncodeBytes.induct with
  | case1 =>
      exact ⟨[], 0, rfl, by simp, by omega, by simp⟩
  | case2 b0 =>
      refine ⟨[b64Char (b0 / 4), b64Char (b0 % 4 * 16)], 2, rfl, ?_, by omega, by simp⟩
      intro c hc
      simp only [List.mem_cons, List.not_mem_nil, or_false] at hc
      rcases hc with rfl | rfl
      · exact b64Char_ne_eq _
      · exact b64Char_ne_eq _
  | case3 b0 b1 =>
      refine ⟨[b64Char (b0 / 4), b64Char (b0 % 4 * 16 + b1 / 16), b64Char (b1 % 16 * 4)], 1,
        rfl, ?_, by omega, by simp⟩
      intro c hc
      simp only [List.mem_cons, List.not_mem_nil, or_false] at hc
      rcases hc with rfl | rfl | rfl
      · exact b64Char_ne_eq _
      · exact b64Char_ne_eq _
      · exact b64Char_ne_eq _
  | case4 b0 b1 b2 rest ih =>
      obtain ⟨body, k, henc, hbody, hk, hlen⟩ := ih
      refine ⟨b64Char (b0 / 4) :: b64Char (b0 % 4 * 16 + b1 / 16) ::
              b64Char (b1 % 16 * 4 + b2 / 64) :: b64Char (b2 % 64) :: body, k, ?_, ?_, hk, ?_⟩
      · rw [b64EncodeBytes, henc]
        simp
      · intro c hc
        simp only [List.mem_cons] at hc
        rcases hc with rfl | rfl | rfl | rfl | h
        · exact b64Char_ne_eq _
        · exact b64Char_ne_eq _
        · exact b64Char_ne_eq _
        · exact b64Char_ne_eq _
        · exact hbody c h
      · simp only [List.length_cons]
        omega

theorem rstripEq_body_pad (body : List Char) (k : Nat) (hbody : ∀ c ∈ body, c ≠ '=') :
    rstripEq (body ++ List.replicate k '=') = body := by
  rw [rstripEq, List.reverse_append, List.reverse_replicate]
  have hdropRep : ∀ m, List.dropWhile (· == '=') (List.replicate m '=' ++ body.reverse)
      = List.dropWhile (· == '=') body.reverse := by
    intro m
    induction m with
    | zero => simp
    | succ m ihm =>
        simp only [List.replicate_succ, List.cons_append, List.dropWhile_cons, beq_self_eq_true,
          reduceIte]
        exact ihm
  rw [hdropRep]
  cases hrev : body.reverse with
  | nil =>
      have : body = [] := by simpa using congrArg List.reverse hrev
      simp [this, hrev]
  | cons c cs =>
      have hcmem : c ∈ body := by
        have : c ∈ body.reverse := by rw [hrev]; simp
        simpa using this
      have : (c == '=') = false := by
        simp only [beq_eq_false_iff_ne]
        exact hbody c hcmem
      rw [List.dropWhile_cons, this]
      simp only [Bool.false_eq_true, reduceIte]
      rw [← hrev, List.reverse_reverse]

/-- Re-padding inverts the `rstrip('=')` applied to genuine encoder output. -/
theorem addPadding_rstripEq (l : List Nat) :
    addPadding (rstripEq (b64EncodeBytes l)) = b64EncodeBytes l := by
  obtain ⟨body, k, henc, hbody, hk, hlen⟩ := b64EncodeBytes_shape l
  rw [henc, rstripEq_body_pad body k hbody, addPadding]
  rcases Nat.lt_or_ge k 1 with h1 | h1
  · have hk0 : k = 0 := by omega
    subst hk0
    have : body.length % 4 = 0 := by omega
    simp [this]
  · rcases Nat.lt_or_ge k 2 with h2 | h2
    · have hk1 : k = 1 := by omega
      subst hk1
      have h3 : body.length % 4 = 3 := by omega
      rw [if_neg (by omega)]
      rw [h3]
    · have hk2 : k = 2 := by omega
      subst hk2
      have h2' : body.length % 4 = 2 := by omega
      rw [if_neg (by omega)]
      rw [h2']

/-- Stripped encoder output never contains `.` (so dot-joined tokens split
back into their three segments). -/
theorem rstripEq_b64EncodeBytes_ne_dot (l : List Nat) :
    ∀ c ∈ rstripEq (b64EncodeBytes l), c ≠ '.' := by
  intro c hc
  have hsub : c ∈ b64EncodeBytes l := by
    have h1 : c ∈ (b64EncodeBytes l).reverse.dropWhile (· == '=') := by
      simpa [rstripEq] using hc
    have h2 : c ∈ (b64EncodeBytes l).reverse :=
      (List.dropWhile_sublist _).mem h1
    simpa using h2
  exact b64EncodeBytes_ne_dot l c hsub

/-! ## Decimal integers (Python `int` serialization inside `json.dumps`,
and the number production of `json.loads`) -/

/-- Character for one decimal digit. -/
def digitChar : Nat → Char
  | 0 => '0' | 1 => '1' | 2 => '2' | 3 => '3' | 4 => '4'
  | 5 => '5' | 6 => '6' | 7 => '7' | 8 => '8' | _ => '9'

/-- Digits of `n`, with structural fuel so that the definition reduces by
iota (any `fuel > n` computes the full representation). -/
def natToCharsAux : Nat → Nat → List Char
  | 0, _ => []
  | fuel + 1, n =>
      if n < 10 then [digitChar n]
      else natToCharsAux fuel (n / 10) ++ [digitChar (n % 10)]

/-- Decimal representation of a non-negative Python `int`, as written by
`json.dumps`. -/
def natToChars (n : Nat) : List Char := natToCharsAux (n + 1) n

def isDigitChar (c : Char) : Bool := 48 ≤ c.toNat && c.toNat ≤ 57

def digitVal (c : Char) : Nat := c.toNat - 48

/-- Value of a digit string. -/
def decValue (l : List Char) : Nat := l.foldl (fun a c => a * 10 + digitVal c) 0

/-- The number production of `json.loads`: a non-empty maximal digit run. -/
def parseNat (s : List Char) : Option (Nat × List Char) :=
  let ds := s.takeWhile isDigitChar
  if ds.isEmpty then none else some (decValue ds, s.dropWhile isDigitChar)

theorem digitChar_toNat {d : Nat} (h : d < 10) : (digitChar d).toNat = 48 + d := by
  interval_cases d <;> rfl

theorem isDigitChar_digitChar {d : Nat} (h : d < 10) : isDigitChar (digitChar d) = true := by
  interval_cases d <;> rfl

theorem digitVal_digitChar {d : Nat} (h : d < 10) : digitVal (digitChar d) = d := by
  interval_cases d <;> rfl

theorem natToCharsAux_digits :
    ∀ (fuel n : Nat), ∀ c ∈ natToCharsAux fuel n, isDigitChar c = true := by
  intro fuel
  induction fuel with
  | zero =>
      intro n c hc
      simp [natToCharsAux] at hc
  | succ fuel ih =>
      intro n c hc
      rw [natToCharsAux] at hc
      by_cases h : n < 10
      · rw [if_pos h] at hc
        simp only [List.mem_singleton] at hc
        subst hc
        exact isDigitChar_digitChar h
      · rw [if_neg h] at hc
        rcases List.mem_append.mp hc with hm | hm
        · exact ih (n / 10) c hm
        · simp only [List.mem_singleton] at hm
          subst hm
          exact isDigitChar_digitChar (by omega)

theorem natToChars_digits (n : Nat) : ∀ c ∈ natToChars n, isDigitChar c = true :=
  natToCharsAux_digits (n + 1) n

theorem natToChars_ascii (n : Nat) : ∀ c ∈ natToChars n, c.toNat < 256 := by
  intro c hc
  have h := natToChars_digits n c hc
  simp only [isDigitChar, Bool.and_eq_true, decide_eq_true_eq] at h
  omega

theorem takeWhile_append_all {p : Char → Bool} {l r : List Char}
    (h : ∀ c ∈ l, p c = true) : (l ++ r).takeWhile p = l ++ r.takeWhile p := by
  induction l with
  | nil => simp
  | cons x xs ih =>
      have hx : p x = true := h x (by simp)
      rw [List.cons_append, List.takeWhile_cons, if_pos hx,
          ih (fun c hc => h c (by simp [hc])), List.cons_append]

theorem dropWhile_append_all {p : Char → Bool} {l r : List Char}
    (h : ∀ c ∈ l, p c = true) : (l ++ r).dropWhile p = r.dropWhile p := by
  induction l with
  | nil => simp
  | cons x xs ih =>
      have hx : p x = true := h x (by simp)
      rw [List.cons_append, List.dropWhile_cons, if_pos hx,
          ih (fun c hc => h c (by simp [hc]))]

theorem takeWhile_head_false {p : Char → Bool} {r : List Char}
    (h : p (r.headD ' ') = false) : r.takeWhile p = [] := by
  cases r with
  | nil => rfl
  | cons c cs =>
      simp only [List.headD_cons] at h
      simp [List.takeWhile_cons, h]

theorem dropWhile_head_false {p : Char → Bool} {r : List Char}
    (h : p (r.headD ' ') = false) : r.dropWhile p = r := by
  cases r with
  | nil => rfl
  | cons c cs =>
      simp only [List.headD_cons] at h
      simp [List.dropWhile_cons, h]

theorem decValue_natToCharsAux :
    ∀ (fuel n : Nat), n < fuel → decValue (natToCharsAux fuel n) = n := by
  intro fuel
  induction fuel with
  | zero => intro n h; omega
  | succ fuel ih =>
      intro n hfuel
      rw [natToCharsAux]
      by_cases h : n < 10
      · rw [if_pos h]
        simp [decValue, digitVal_digitChar h]
      · rw [if_neg h, decValue, List.foldl_append]
        have hrec : decValue (natToCharsAux fuel (n / 10)) = n / 10 := ih (n / 10) (by omega)
        rw [decValue] at hrec
        rw [hrec]
        simp only [List.foldl_cons, List.foldl_nil]
        rw [digitVal_digitChar (by omega)]
        omega

theorem decValue_natToChars (n : Nat) : decValue (natToChars n) = n :=
  decValue_natToCharsAux (n + 1) n (by omega)

/-- `parseNat` consumes exactly a rendered number when the remainder does not
begin with a digit. -/
theorem parseNat_natToChars (n : Nat) (rest : List Char)
    (h : isDigitChar (rest.headD ' ') = false) :
    parseNat (natToChars n ++ rest) = some (n, rest) := by
  rw [parseNat]
  have ht : (natToChars n ++ rest).takeWhile isDigitChar = natToChars n := by
    rw [takeWhile_append_all (natToChars_digits n), takeWhile_head_false h, List.append_nil]
  have hd : (natToChars n ++ rest).dropWhile isDigitChar = rest := by
    rw [dropWhile_append_all (natToChars_digits n), dropWhile_head_false h]
  simp only [ht, hd]
  have hne : natToChars n ≠ [] := by
    rw [natToChars, natToCharsAux]
    split <;> simp
  simp [List.isEmpty_iff, hne, decValue_natToChars]

/-! ## Claims and header JSON

`auth_login` builds `payload = {'user_id': ..., 'exp': ..., 'iat': ...}` and
serializes it with `json.dumps` (default separators, insertion order), and a
constant header `json.dumps({'alg': 'HS256', 'typ': 'JWT'})`. The parsers
below model `json.loads` restricted to exactly these two object shapes (the
only ones the codec ever emits). -/

/-- The claims carried by a credential: `user_id`, `exp`, `iat`
(all non-negative Python ints in the source). -/
structure TokenClaims where
  user_id : Nat
  exp : Nat
  iat : Nat
deriving DecidableEq

/-- The decoded header object `{"alg": ..., "typ": ...}`. -/
structure TokenHeader where
  alg : List Char
  typ : List Char
deriving DecidableEq

/-- Literal opening of the claims JSON. -/
def litUserId : List Char := "\x7b\"user_id\": ".data

def litExp : List Char := ", \"exp\": ".data

def litIat : List Char := ", \"iat\": ".data

def litClose : List Char := "\x7d".data

/-- `json.dumps({'user_id': u, 'exp': e, 'iat': i})` with Python's default
separators, in the insertion order used at `auth_login.py:66-70`. -/
def dumpsClaims (c : TokenClaims) : List Char :=
  litUserId ++ natToChars c.user_id ++ litExp ++ natToChars c.exp ++
    litIat ++ natToChars c.iat ++ litClose

/-- `json.dumps({'alg': 'HS256', 'typ': 'JWT'})` (auth_login.py:72). -/
def headerJsonChars : List Char := "\x7b\"alg\": \"HS256\", \"typ\": \"JWT\"\x7d".data

/-- Match a literal prefix and return the remainder. -/
def dropLit : List Char → List Char → Option (List Char)
  | [], s => some s
  | l :: ls, c :: cs => if c = l then dropLit ls cs else none
  | _ :: _, [] => none

/-- A JSON string literal `"..."` (no escapes occur in the emitted headers). -/
def parseQuoted (s : List Char) : Option (List Char × List Char) :=
  match s with
  | '"' :: rest =>
      match rest.dropWhile (· ≠ '"') with
      | '"' :: tail => some (rest.takeWhile (· ≠ '"'), tail)
      | _ => none
  | _ => none

/-- `json.loads` on the claims payload shape emitted by `auth_login`. -/
def parseClaims (s : List Char) : Option TokenClaims := do
  let s ← dropLit litUserId s
  let (u, s) ← parseNat s
  let s ← dropLit litExp s
  let (e, s) ← parseNat s
  let s ← dropLit litIat s
  let (i, s) ← parseNat s
  let s ← dropLit litClose s
  if s.isEmpty then pure ⟨u, e, i⟩ else none

/-- `json.loads` on the constant header shape emitted by `auth_login`. -/
def parseHeader (s : List Char) : Option TokenHeader := do
  let s ← dropLit "\x7b\"alg\": ".data s
  let (alg, s) ← parseQuoted s
  let s ← dropLit ", \"typ\": ".data s
  let (typ, s) ← parseQuoted s
  let s ← dropLit litClose s
  if s.isEmpty then pure ⟨alg, typ⟩ else none

theorem dropLit_append (lit rest : List Char) : dropLit lit (lit ++ rest) = some rest := by
  induction lit with
  | nil => rfl
  | cons c cs ih => simp [dropLit, ih]

/-- The claims serializer/parser pair is a round trip
(`json.loads(json.dumps(payload)) == payload`). -/
theorem parseClaims_dumpsClaims (c : TokenClaims) : parseClaims (dumpsClaims c) = some c := by
  rw [parseClaims, dumpsClaims]
  simp only [List.append_assoc]
  rw [dropLit_append]
  simp only [Option.bind_eq_bind, Option.some_bind]
  rw [parseNat_natToChars _ _ (by rw [litExp]; rfl)]
  simp only [Option.some_bind]
  rw [dropLit_append]
  simp only [Option.some_bind]
  rw [parseNat_natToChars _ _ (by rw [litIat]; rfl)]
  simp only [Option.some_bind]
  rw [dropLit_append]
  simp only [Option.some_bind]
  rw [parseNat_natToChars _ _ (by rw [litClose]; rfl)]
  simp only [Option.some_bind]
  have hcl : dropLit litClose litClose = some [] := by
    have h := dropLit_append litClose []
    simpa using h
  rw [hcl]
  simp

/-- The constant header parses back to its two fields. -/
theorem parseHeader_headerJsonChars :
    parseHeader headerJsonChars = some ⟨"HS256".data, "JWT".data⟩ := by decide

theorem dumpsClaims_ascii (c : TokenClaims) : ∀ ch ∈ dumpsClaims c, ch.toNat < 256 := by
  intro ch hch
  rw [dumpsClaims] at hch
  simp only [List.append_assoc, List.mem_append] at hch
  have hlit1 : ∀ x ∈ litUserId, Char.toNat x < 256 := by decide
  have hlit2 : ∀ x ∈ litExp, Char.toNat x < 256 := by decide
  have hlit3 : ∀ x ∈ litIat, Char.toNat x < 256 := by decide
  have hlit4 : ∀ x ∈ litClose, Char.toNat x < 256 := by decide
  rcases hch with h | h | h | h | h | h | h
  · exact hlit1 ch h
  · exact natToChars_ascii _ ch h
  · exact hlit2 ch h
  · exact natToChars_ascii _ ch h
  · exact hlit3 ch h
  · exact natToChars_ascii _ ch h
  · exact hlit4 ch h

theorem headerJsonChars_ascii : ∀ ch ∈ headerJsonChars, ch.toNat < 256 := by decide

/-! ## Dot-joined segments (`token.count('.')` / `token.split('.')`) -/

/-- Python `token.count('.')`. -/
def countDots (s : List Char) : Nat := s.count '.'

/-- Python `token.split('.')`. -/
def splitDots : List Char → List (List Char)
  | [] => [[]]
  | c :: cs =>
      if c = '.' then [] :: splitDots cs
      else
        match splitDots cs with
        | [] => [[c]]
        | p :: ps => (c :: p) :: ps

theorem splitDots_no_dot {s : List Char} (h : '.' ∉ s) : splitDots s = [s] := by
  induction s with
  | nil => rfl
  | cons c cs ih =>
      have hc : c ≠ '.' := fun hc => h (by simp [hc])
      have hcs : '.' ∉ cs := fun hm => h (by simp [hm])
      rw [splitDots]
      simp [hc, ih hcs]

theorem splitDots_append_dot {pre : List Char} (rest : List Char) (h : '.' ∉ pre) :
    splitDots (pre ++ '.' :: rest) = pre :: splitDots rest := by
  induction pre with
  | nil => simp [splitDots]
  | cons c cs ih =>
      have hc : c ≠ '.' := fun hc => h (by simp [hc])
      have hcs : '.' ∉ cs := fun hm => h (by simp [hm])
      rw [List.cons_append, splitDots]
      simp only [hc, reduceIte]
      rw [ih hcs]

theorem countDots_three_parts {h p s : List Char}
    (hh : '.' ∉ h) (hp : '.' ∉ p) (hs : '.' ∉ s) :
    countDots (h ++ '.' :: (p ++ '.' :: s)) = 2 := by
  rw [countDots]
  simp [List.count_append, List.count_cons, List.count_eq_zero.mpr hh,
    List.count_eq_zero.mpr hp, List.count_eq_zero.mpr hs]

theorem splitDots_three_parts {h p s : List Char}
    (hh : '.' ∉ h) (hp : '.' ∉ p) (hs : '.' ∉ s) :
    splitDots (h ++ '.' :: (p ++ '.' :: s)) = [h, p, s] := by
  rw [splitDots_append_dot _ hh, splitDots_append_dot _ hp, splitDots_no_dot hs]

/-! ## Token codec and validator

`hmacFn` abstracts `hmac.new(secret.encode(), msg.encode(), hashlib.sha256)
.digest()`: an external primitive mapping a secret and a message to a digest
byte string. All theorems below hold for every such function. -/

/-- Python `str.encode()` on the ASCII strings the codec emits. -/
def charsToBytes (s : List Char) : List Nat := s.map Char.toNat

/-- Python `bytes.decode('utf-8')` on ASCII byte strings. -/
def bytesToChars (l : List Nat) : List Char := l.map Char.ofNat

theorem bytesToChars_charsToBytes (s : List Char) : bytesToChars (charsToBytes s) = s := by
  simp [bytesToChars, charsToBytes, List.map_map, Function.comp_def, Char.ofNat_toNat]

/-- Token issuance, `auth_login.py:71-77`: three dot-joined unpadded
base64url segments (constant header, claims payload, HMAC signature over
`header_segment.payload_segment`). -/
def encodeToken (cl : TokenClaims) (secret : List Char)
    (hmacFn : List Char → List Char → List Nat) : List Char :=
  let header := rstripEq (b64EncodeBytes (charsToBytes headerJsonChars))
  let payload := rstripEq (b64EncodeBytes (charsToBytes (dumpsClaims cl)))
  let signature := rstripEq (b64EncodeBytes (hmacFn secret (header ++ '.' :: payload)))
  header ++ '.' :: (payload ++ '.' :: signature)

/-- The structural decoding part of `_validate_jwt` (`cart_api.py:36-54`):
dot-count check, split, re-pad, base64url-decode and JSON-parse the header
and payload segments. -/
def decodeCredential (token : List Char) : Option (TokenHeader × TokenClaims) :=
  if countDots token ≠ 2 then none
  else
    match splitDots token with
    | [headerB64, payloadB64, _signatureB64] =>
        match b64DecodeBytes (addPadding headerB64), b64DecodeBytes (addPadding payloadB64) with
        | some headerBytes, some payloadBytes =>
            match parseHeader (bytesToChars headerBytes), parseClaims (bytesToChars payloadBytes) with
            | some hdr, some cl => some (hdr, cl)
            | _, _ => none
        | _, _ => none
    | _ => none

/-- The `(user_id, error_data, status_code)` triple returned by
`_validate_jwt`; `errMsg` is the `message` field of the error dict (for
f-string messages the static prefix is kept). -/
structure VJResult where
  userId : Option Nat
  errMsg : Option String
  status : Nat
deriving DecidableEq

/-- `_validate_jwt` (`cart_api.py:27-92`). The token is a string here, so the
`isinstance` half of the first check drops; `payload['exp']` and
`payload['user_id']` are ints by construction of `parseClaims`, so the
`isinstance` sub-checks on them are vacuous; `not user_id` is the Python
falsiness test, i.e. `user_id = 0`. -/
def validateJwt (token : List Char) (secretKey : Option (List Char))
    (hmacFn : List Char → List Char → List Nat)
    (currentTime : Nat) (userExists : Nat → Bool) : VJResult :=
  if token = [] then ⟨none, some "Invalid token: empty or not a string", 401⟩
  else if countDots token ≠ 2 then
    ⟨none, some "Invalid token format: must contain header.payload.signature", 401⟩
  else
    match splitDots token with
    | [headerB64, payloadB64, signatureB64] =>
        match b64DecodeBytes (addPadding headerB64), b64DecodeBytes (addPadding payloadB64) with
        | some headerBytes, some payloadBytes =>
            match parseHeader (bytesToChars headerBytes), parseClaims (bytesToChars payloadBytes) with
            | some _, some payload =>
                match secretKey with
                | none => ⟨none, some "Server configuration error", 500⟩
                | some sk =>
                    let expectedSignature :=
                      rstripEq (b64EncodeBytes (hmacFn sk (headerB64 ++ '.' :: payloadB64)))
                    if signatureB64 ≠ expectedSignature then
                      ⟨none, some "Invalid token signature", 401⟩
                    else if payload.exp < currentTime then
                      ⟨none, some "Token expired", 401⟩
                    else if payload.user_id = 0 then
                      ⟨none, some "Invalid token: missing or invalid user_id", 401⟩
                    else if userExists payload.user_id = false then
                      ⟨none, some "Invalid user", 401⟩
                    else ⟨some payload.user_id, none, 200⟩
            | _, _ => ⟨none, some "Invalid token structure", 401⟩
        | _, _ => ⟨none, some "Invalid token encoding", 401⟩
    | _ => ⟨none, some "Invalid token format: must contain header.payload.signature", 401⟩

theorem seg_no_dot (l : List Nat) : '.' ∉ rstripEq (b64EncodeBytes l) :=
  fun hm => rstripEq_b64EncodeBytes_ne_dot l '.' hm rfl

theorem seg_roundtrip {s : List Char} (hascii : ∀ c ∈ s, c.toNat < 256) :
    b64DecodeBytes (addPadding (rstripEq (b64EncodeBytes (charsToBytes s)))) =
      some (charsToBytes s) := by
  rw [addPadding_rstripEq, b64DecodeBytes_b64EncodeBytes]
  intro b hb
  rw [charsToBytes] at hb
  obtain ⟨c, hc, rfl⟩ := List.mem_map.mp hb
  exact hascii c hc

theorem encodeToken_ne_nil (cl : TokenClaims) (secret : List Char)
    (hmacFn : List Char → List Char → List Nat) : encodeToken cl secret hmacFn ≠ [] := by
  rw [encodeToken]
  cases h : rstripEq (b64EncodeBytes (charsToBytes headerJsonChars)) <;> simp [h]

/-- Splitting an encoded token recovers its three segments. -/
theorem splitDots_encodeToken (cl : TokenClaims) (secret : List Char)
    (hmacFn : List Char → List Char → List Nat) :
    splitDots (encodeToken cl secret hmacFn) =
      [rstripEq (b64EncodeBytes (charsToBytes headerJsonChars)),
       rstripEq (b64EncodeBytes (charsToBytes (dumpsClaims cl))),
       rstripEq (b64EncodeBytes (hmacFn secret
         (rstripEq (b64EncodeBytes (charsToBytes headerJsonChars)) ++ '.' ::
          rstripEq (b64EncodeBytes (charsToBytes (dumpsClaims cl))))))] := by
  rw [encodeToken]
  exact splitDots_three_parts (seg_no_dot _) (seg_no_dot _) (seg_no_dot _)

theorem countDots_encodeToken (cl : TokenClaims) (secret : List Char)
    (hmacFn : List Char → List Char → List Nat) :
    countDots (encodeToken cl secret hmacFn) = 2 := by
  rw [encodeToken]
  exact countDots_three_parts (seg_no_dot _) (seg_no_dot _) (seg_no_dot _)

/-- Structural decoding inverts encoding: the codec round trip. -/
theorem decodeCredential_encodeToken (cl : TokenClaims) (secret : List Char)
    (hmacFn : List Char → List Char → List Nat) :
    decodeCredential (encodeToken cl secret hmacFn) =
      some (⟨"HS256".data, "JWT".data⟩, cl) := by
  rw [decodeCredential, countDots_encodeToken, if_neg (by simp), splitDots_encodeToken]
  simp only [seg_roundtrip headerJsonChars_ascii, seg_roundtrip (dumpsClaims_ascii cl),
    bytesToChars_charsToBytes, parseHeader_headerJsonChars, parseClaims_dumpsClaims cl]

/-- Full behaviour of `_validate_jwt` on a token produced by the login
controller with the same secret: signature verification succeeds and the
result is decided by the expiry, falsiness-of-user_id and user-existence
checks, in that order. There is no check of `iat` at all. -/
theorem validateJwt_encodeToken (cl : TokenClaims) (sk : List Char)
    (hmacFn : List Char → List Char → List Nat) (now : Nat) (userExists : Nat → Bool) :
    validateJwt (encodeToken cl sk hmacFn) (some sk) hmacFn now userExists =
      if cl.exp < now then ⟨none, some "Token expired", 401⟩
      else if cl.user_id = 0 then ⟨none, some "Invalid token: missing or invalid user_id", 401⟩
      else if userExists cl.user_id = false then ⟨none, some "Invalid user", 401⟩
      else ⟨some cl.user_id, none, 200⟩ := by
  rw [validateJwt, if_neg (encodeToken_ne_nil cl sk hmacFn)]
  rw [countDots_encodeToken, if_neg (by simp), splitDots_encodeToken]
  simp only [seg_roundtrip headerJsonChars_ascii, seg_roundtrip (dumpsClaims_ascii cl),
    bytesToChars_charsToBytes, parseHeader_headerJsonChars, parseClaims_dumpsClaims cl]
  simp only [ne_eq, not_true_eq_false, reduceIte]

/-! ## Cart lines (`cart_api.py:160-170` and `sale_order.py`) -/

/-- A `sale.order.line` as the embedded code reads it. -/
structure OrderLine where
  product_id : Nat
  product_uom_qty : Int
  price_unit : Int
deriving DecidableEq

/-- `order_line.filtered(...)[0].product_uom_qty += quantity`: add the
quantity onto the first line of the product, leaving everything else
(including its `price_unit`) unchanged. -/
def incFirstLine : List OrderLine → Nat → Int → List OrderLine
  | [], _, _ => []
  | l :: ls, pid, q =>
      if l.product_id = pid then { l with product_uom_qty := l.product_uom_qty + q } :: ls
      else l :: incFirstLine ls pid q

/-- The add-or-update step of `add_to_cart` (`cart_api.py:160-170`): if a
line for the product exists, merge the quantity into the first one;
otherwise append a new line priced at the product's current `list_price`. -/
def add_to_cart_lines (lines : List OrderLine) (productId : Nat) (quantity : Int)
    (listPrice : Int) : List OrderLine :=
  if (lines.filter (fun l => l.product_id == productId)).isEmpty then
    lines ++ [⟨productId, quantity, listPrice⟩]
  else incFirstLine lines productId quantity

/-- A `sale.order.line` with its database id, as `update_cart_line` browses
it. -/
structure CartLine where
  id : Nat
  product_id : Nat
  product_uom_qty : Int
  price_unit : Int
deriving DecidableEq

/-- `update_cart_line` (`sale_order.py:47-56`): error when the line id does
not exist, `unlink` when `remove` is set, otherwise write the given
quantity. There is no removal branch for non-positive quantities. -/
def update_cart_line (lines : List CartLine) (lineId : Nat) (quantity : Option Int)
    (remove : Bool) : Except String (List CartLine) :=
  if (lines.filter (fun l => l.id == lineId)).isEmpty then .error "Cart line not found"
  else if remove then .ok (lines.filter (fun l => l.id != lineId))
  else
    match quantity with
    | some q =>
        .ok (lines.map (fun l => if l.id = lineId then { l with product_uom_qty := q } else l))
    | none => .ok lines

/-! ## Checkout confirmation (`api_shop_checkout.py` / `api_shop_checkout_old.py`) -/

/-- Odoo sale-order states reachable in the embedded code (`sale` is the
confirmed state `action_confirm` produces). -/
inductive OrderState where
  | draft
  | sent
  | sale
deriving DecidableEq

/-- The fields of the session's `sale.order` that `confirm_checkout`
reads or writes. -/
structure CheckoutOrder where
  id : Nat
  name : String
  state : OrderState
  partner_id : Option Nat
  order_line : List OrderLine
  amount_total : Int
  carrier_line : Option (Nat × Int)
deriving DecidableEq

/-- `order.set_delivery_line(carrier, price)` (delivery-module
collaborator). Modelled from the spec: `select_carrier` stores the carrier
(and its rate) on the cart. -/
def set_delivery_line (o : CheckoutOrder) (carrierId : Nat) (price : Int) : CheckoutOrder :=
  { o with carrier_line := some (carrierId, price) }

/-- `order.action_confirm()` (sale-module collaborator). Modelled from the
spec: on success the state becomes confirmed (`sale`) irreversibly. -/
def action_confirm (o : CheckoutOrder) : CheckoutOrder :=
  { o with state := OrderState.sale }

/-- Response of the confirm endpoints: the `success: True` payload carries
the order id, its human-readable `name` reference and the total. -/
inductive ConfirmResult where
  | ok (orderId : Nat) (orderName : String) (amountTotal : Int)
  | err (msg : String)
deriving DecidableEq

/-- The `Set carrier if provided` block (`api_shop_checkout.py:356-364`):
when a carrier id is posted and the carrier exists, the delivery line is
written onto the order before anything else is validated. -/
def carrier_step (o : CheckoutOrder) (carrierId : Option Nat) (carrierExists : Nat → Bool)
    (carrierFixedPrice : Nat → Int) : CheckoutOrder :=
  match carrierId with
  | some cid => if carrierExists cid then set_delivery_line o cid (carrierFixedPrice cid) else o
  | none => o

/-- `confirm_checkout` (`api_shop_checkout.py:343-389`), paired with the
resulting state of the session order. Inputs model the collaborators:
`website` presence, `website.sale_get_order()`, the posted `carrier_id`,
`delivery.carrier` existence/fixed price, and `base.public_partner`. -/
def confirm_checkout (websiteOk : Bool) (order : Option CheckoutOrder)
    (carrierId : Option Nat) (carrierExists : Nat → Bool) (carrierFixedPrice : Nat → Int)
    (publicPartnerId : Nat) : ConfirmResult × Option CheckoutOrder :=
  if websiteOk = false then (.err "No website found.", order)
  else
    match order with
    | none => (.err "No valid cart", none)
    | some o =>
        if o.state ≠ OrderState.draft ∧ o.state ≠ OrderState.sent then
          (.err "No valid cart", some o)
        else
          let o1 := carrier_step o carrierId carrierExists carrierFixedPrice
          if o1.partner_id = none ∨ o1.partner_id = some publicPartnerId then
            (.err "Please provide billing information", some o1)
          else
            let o2 := action_confirm o1
            (.ok o2.id o2.name o2.amount_total, some o2)

/-- `api_confirm_checkout` (`api_shop_checkout_old.py:131-157`): the older
variant of the same endpoint; rejects any non-`draft` order, then assigns
the carrier when its rate quote succeeds and confirms. -/
def api_confirm_checkout (order : Option CheckoutOrder) (carrierId : Option Nat)
    (rateSuccess : Nat → Bool) (ratePrice : Nat → Int) : ConfirmResult × Option CheckoutOrder :=
  match order with
  | none => (.err "Invalid order state", none)
  | some o =>
      if o.state ≠ OrderState.draft then (.err "Invalid order state", some o)
      else
        let o1 := carrier_step o carrierId rateSuccess ratePrice
        let o2 := action_confirm o1
        (.ok o2.id o2.name o2.amount_total, some o2)

/-! ## Cart store (`cart_api.py:146-158`) and `create_cart`
(`sale_order.py:7-29`) -/

/-- A draft `sale.order` as the find-or-create code reads it. -/
structure DraftCart where
  id : Nat
  partner_id : Nat
  user_id : Nat
  state : OrderState
deriving DecidableEq

/-- The `sale.order` table restricted to the fields the find-or-create code
touches; `search` returns the first match in table order, `create` appends
with a fresh id. -/
structure CartStore where
  carts : List DraftCart
  next_id : Nat
deriving DecidableEq

/-- Find-or-create of `add_to_cart` (`cart_api.py:146-158`): search the
partner's draft order (limit 1), create one in state `draft` if absent. -/
def get_or_create_cart (st : CartStore) (partnerId userId : Nat) : DraftCart × CartStore :=
  match st.carts.find? (fun c => c.partner_id == partnerId && c.state == OrderState.draft) with
  | some c => (c, st)
  | none =>
      let c : DraftCart := ⟨st.next_id, partnerId, userId, OrderState.draft⟩
      (c, ⟨st.carts ++ [c], st.next_id + 1⟩)

/-- The partner's draft carts in a store. -/
def draftCartsFor (st : CartStore) (partnerId : Nat) : List DraftCart :=
  st.carts.filter (fun c => c.partner_id == partnerId && c.state == OrderState.draft)

/-- The Python exception the guest branch of `create_cart` raises. -/
inductive PyError where
  | nameError
deriving DecidableEq

/-- A `sale.order` row as `create_cart` reads it. -/
structure SaleOrderRec where
  id : Nat
  partner_id : Nat
  website_id : Nat
  state : OrderState
deriving DecidableEq

structure SaleOrderStore where
  orders : List SaleOrderRec
  next_id : Nat
deriving DecidableEq

/-- The names bound at module level in `src/models/sale_order.py`: the two
imported sets (`from odoo import models, fields, api` and `time`) and the
class it defines. `request` is not among them. -/
def saleOrderModuleGlobals : List String := ["models", "fields", "api", "time", "SaleOrder"]

/-- `create_cart` (`sale_order.py:7-29`). In the guest branch
(`partner_id` falsy) the first evaluated expression is the f-string
`f'Guest_{request.httprequest.remote_addr}_{int(time.time())}'` inside the
`res.partner` create values; looking up the unbound name `request` raises
`NameError` before any record is created, so the branch is embedded as that
error. With a partner, the draft order for (partner, website) is searched
(limit 1) and created if absent. -/
def create_cart (partnerId : Option Nat) (websiteId : Nat) (st : SaleOrderStore) :
    Except PyError (SaleOrderRec × SaleOrderStore) :=
  match partnerId with
  | none => .error PyError.nameError
  | some pid =>
      match st.orders.find? (fun o => o.partner_id == pid && o.website_id == websiteId &&
          o.state == OrderState.draft) with
      | some o => .ok (o, st)
      | none =>
          let o : SaleOrderRec := ⟨st.next_id, pid, websiteId, OrderState.draft⟩
          .ok (o, ⟨st.orders ++ [o], st.next_id + 1⟩)

/-! ## Claims -/

/-- C1: Token round-trip — for every valid claims payload (user_id, iat,
exp), structurally decoding the credential produced by `encode` (three
dot-joined unpadded base64url segments) recovers exactly the original
header and claims, for any secret and any HMAC primitive. -/
theorem C1_token_roundtrip (cl : TokenClaims) (secret : List Char)
    (hmacFn : List Char → List Char → List Nat) :
    decodeCredential (encodeToken cl secret hmacFn) =
      some (⟨"HS256".data, "JWT".data⟩, cl) :=
  decodeCredential_encodeToken cl secret hmacFn

/-- C2 counterexample: the claim fails on the code in two ways. A correctly
signed credential whose `exp` equals the current time is accepted
(`_validate_jwt` tests `token_exp < current_time`, not `<=`), so
`authenticate` does not accept only when `exp > now`; and an expired
credential whose signature does not verify fails with the signature
message, not `Token expired`, because the signature is checked first. -/
theorem C2_expiry_counterexample :
    (validateJwt (encodeToken ⟨1, 1000, 999⟩ ['k'] (fun sk _ => sk.map Char.toNat))
        (some ['k']) (fun sk _ => sk.map Char.toNat) 1000 (fun _ => true) =
      ⟨some 1, none, 200⟩) ∧
    ((1000 : Nat) ≤ 1000) ∧
    (validateJwt (encodeToken ⟨1, 5, 4⟩ ['a'] (fun sk _ => sk.map Char.toNat))
        (some ['b']) (fun sk _ => sk.map Char.toNat) 1000 (fun _ => true) =
      ⟨none, some "Invalid token signature", 401⟩) ∧
    ((5 : Nat) < 1000) := by
  refine ⟨rfl, by decide, rfl, by decide⟩

/-- C2 amended: for a well-formed, correctly signed credential, validation
fails with `Token expired` exactly when `exp` is strictly less than the
current time; a credential with `exp` equal to the current time passes the
expiry check (and is accepted when its user is valid). An expired
credential with an invalid signature fails with the signature error
instead (see the counterexample). -/
theorem C2_expiry_behavior (cl : TokenClaims) (sk : List Char)
    (hmacFn : List Char → List Char → List Nat) (now : Nat) (ue : Nat → Bool) :
    (cl.exp < now →
      validateJwt (encodeToken cl sk hmacFn) (some sk) hmacFn now ue =
        ⟨none, some "Token expired", 401⟩) ∧
    (cl.exp = now → cl.user_id ≠ 0 → ue cl.user_id = true →
      validateJwt (encodeToken cl sk hmacFn) (some sk) hmacFn now ue =
        ⟨some cl.user_id, none, 200⟩) := by
  constructor
  · intro h
    rw [validateJwt_encodeToken, if_pos h]
  · intro h hu hue
    rw [validateJwt_encodeToken, if_neg (by omega), if_neg hu, if_neg (by simp [hue])]

/-- Witness for C2 amended at concrete inputs. -/
theorem C2_expiry_behavior_witness :
    validateJwt (encodeToken ⟨1, 5, 4⟩ ['k'] (fun sk _ => sk.map Char.toNat))
        (some ['k']) (fun sk _ => sk.map Char.toNat) 10 (fun _ => true) =
      ⟨none, some "Token expired", 401⟩ ∧
    validateJwt (encodeToken ⟨1, 10, 4⟩ ['k'] (fun sk _ => sk.map Char.toNat))
        (some ['k']) (fun sk _ => sk.map Char.toNat) 10 (fun _ => true) =
      ⟨some 1, none, 200⟩ :=
  ⟨(C2_expiry_behavior ⟨1, 5, 4⟩ ['k'] (fun sk _ => sk.map Char.toNat) 10 (fun _ => true)).1
      (by decide),
   (C2_expiry_behavior ⟨1, 10, 4⟩ ['k'] (fun sk _ => sk.map Char.toNat) 10 (fun _ => true)).2
      rfl (by decide) rfl⟩

/-- C3 counterexample: a credential with a valid signature, unexpired
`exp`, and `iat` strictly in the future (iat = 150 > now = 100) is accepted
and yields the identity — `_validate_jwt` never reads `iat`, so the claim
that such credentials are rejected is false. -/
theorem C3_iat_counterexample :
    validateJwt (encodeToken ⟨1, 200, 150⟩ ['k'] (fun sk _ => sk.map Char.toNat))
        (some ['k']) (fun sk _ => sk.map Char.toNat) 100 (fun _ => true) =
      ⟨some 1, none, 200⟩ ∧ (100 : Nat) < 150 := by
  refine ⟨rfl, by decide⟩

/-- C3 amended: the validator performs no issued-at check — a correctly
signed, unexpired credential for an existing non-zero user is accepted
even when its `iat` is strictly greater than the current time. -/
theorem C3_no_iat_check (cl : TokenClaims) (sk : List Char)
    (hmacFn : List Char → List Char → List Nat) (now : Nat) (ue : Nat → Bool)
    (hexp : ¬ cl.exp < now) (_hiat : now < cl.iat)
    (hu : cl.user_id ≠ 0) (hue : ue cl.user_id = true) :
    validateJwt (encodeToken cl sk hmacFn) (some sk) hmacFn now ue =
      ⟨some cl.user_id, none, 200⟩ := by
  rw [validateJwt_encodeToken, if_neg hexp, if_neg hu, if_neg (by simp [hue])]

/-- Witness for C3 at a concrete not-yet-valid credential. -/
theorem C3_no_iat_check_witness :
    validateJwt (encodeToken ⟨2, 300, 250⟩ ['s'] (fun sk _ => sk.map Char.toNat))
        (some ['s']) (fun sk _ => sk.map Char.toNat) 200 (fun _ => true) =
      ⟨some 2, none, 200⟩ :=
  C3_no_iat_check ⟨2, 300, 250⟩ ['s'] (fun sk _ => sk.map Char.toNat) 200 (fun _ => true)
    (by decide) (by decide) (by decide) rfl

/-- C4 counterexample: an expired credential and one with a bad signature
both come back as 401, but their response bodies differ (`Token expired`
vs `Invalid token signature`), so the bodies do distinguish which
`AuthError` variant occurred. -/
theorem C4_distinct_bodies_counterexample :
    (validateJwt (encodeToken ⟨1, 5, 4⟩ ['k'] (fun sk _ => sk.map Char.toNat))
        (some ['k']) (fun sk _ => sk.map Char.toNat) 10 (fun _ => true)).status = 401 ∧
    (validateJwt (encodeToken ⟨1, 50, 4⟩ ['a'] (fun sk _ => sk.map Char.toNat))
        (some ['b']) (fun sk _ => sk.map Char.toNat) 10 (fun _ => true)).status = 401 ∧
    (validateJwt (encodeToken ⟨1, 5, 4⟩ ['k'] (fun sk _ => sk.map Char.toNat))
        (some ['k']) (fun sk _ => sk.map Char.toNat) 10 (fun _ => true)).errMsg ≠
      (validateJwt (encodeToken ⟨1, 50, 4⟩ ['a'] (fun sk _ => sk.map Char.toNat))
        (some ['b']) (fun sk _ => sk.map Char.toNat) 10 (fun _ => true)).errMsg := by
  refine ⟨rfl, rfl, ?_⟩
  intro h
  simp only [show (validateJwt (encodeToken ⟨1, 5, 4⟩ ['k'] (fun sk _ => sk.map Char.toNat))
      (some ['k']) (fun sk _ => sk.map Char.toNat) 10 (fun _ => true)).errMsg =
      some "Token expired" from rfl,
    show (validateJwt (encodeToken ⟨1, 50, 4⟩ ['a'] (fun sk _ => sk.map Char.toNat))
      (some ['b']) (fun sk _ => sk.map Char.toNat) 10 (fun _ => true)).errMsg =
      some "Invalid token signature" from rfl] at h
  exact absurd h (by decide)

/-- C4 amended: with a configured secret every validation outcome has
status 200 or 401 — the status never distinguishes why authentication
failed — but the response bodies carry distinct messages identifying the
failure class, as the four variants (malformed, bad signature, expired,
unknown user) show at concrete credentials. -/
theorem C4_auth_status_uniform_bodies_distinct :
    (∀ (token : List Char) (sk : List Char) (hmacFn : List Char → List Char → List Nat)
        (now : Nat) (ue : Nat → Bool),
      (validateJwt token (some sk) hmacFn now ue).status = 200 ∨
      (validateJwt token (some sk) hmacFn now ue).status = 401) ∧
    (validateJwt ['a', 'b', 'c'] (some ['k']) (fun sk _ => sk.map Char.toNat) 10
        (fun _ => true)).errMsg =
      some "Invalid token format: must contain header.payload.signature" ∧
    (validateJwt (encodeToken ⟨1, 50, 4⟩ ['a'] (fun sk _ => sk.map Char.toNat))
        (some ['b']) (fun sk _ => sk.map Char.toNat) 10 (fun _ => true)).errMsg =
      some "Invalid token signature" ∧
    (validateJwt (encodeToken ⟨1, 5, 4⟩ ['k'] (fun sk _ => sk.map Char.toNat))
        (some ['k']) (fun sk _ => sk.map Char.toNat) 10 (fun _ => true)).errMsg =
      some "Token expired" ∧
    (validateJwt (encodeToken ⟨1, 50, 4⟩ ['k'] (fun sk _ => sk.map Char.toNat))
        (some ['k']) (fun sk _ => sk.map Char.toNat) 10 (fun _ => false)).errMsg =
      some "Invalid user" ∧
    ([some "Invalid token format: must contain header.payload.signature",
      some "Invalid token signature", some "Token expired",
      some "Invalid user"] : List (Option String)).Nodup := by
  refine ⟨?_, rfl, rfl, rfl, rfl, by decide⟩
  intro token sk hmacFn now ue
  rw [validateJwt]
  repeat' split
  all_goals try simp_all
  all_goals (split <;> first | (left; rfl) | (right; rfl))

theorem incFirstLine_append_of_no_match {lines : List OrderLine} {P : Nat}
    (h : ∀ l ∈ lines, (l.product_id == P) = false) (x : OrderLine) (q : Int) :
    incFirstLine (lines ++ [x]) P q = lines ++ incFirstLine [x] P q := by
  induction lines with
  | nil => simp
  | cons l ls ih =>
      have hl : l.product_id ≠ P := by
        have := h l (by simp)
        simpa using this
      rw [List.cons_append, incFirstLine, if_neg hl,
          ih (fun a ha => h a (by simp [ha])), List.cons_append]

/-- C5: `add_line` merges — on a cart with no line for product P, adding
qty 2 and then qty 3 (with any current list prices) leaves the cart with
exactly one line for P, of quantity 5, priced at the first add's list
price; the other lines are untouched. -/
theorem C5_add_line_merges (lines : List OrderLine) (P : Nat) (pr1 pr2 : Int)
    (hno : lines.filter (fun l => l.product_id == P) = []) :
    add_to_cart_lines (add_to_cart_lines lines P 2 pr1) P 3 pr2 =
      lines ++ [⟨P, 5, pr1⟩] ∧
    (add_to_cart_lines (add_to_cart_lines lines P 2 pr1) P 3 pr2).filter
      (fun l => l.product_id == P) = [⟨P, 5, pr1⟩] := by
  have hall : ∀ l ∈ lines, (l.product_id == P) = false := by
    intro l hl
    have hne := List.filter_eq_nil_iff.mp hno l hl
    simpa using hne
  have hstep1 : add_to_cart_lines lines P 2 pr1 = lines ++ [⟨P, 2, pr1⟩] := by
    rw [add_to_cart_lines, if_pos (by rw [hno]; rfl)]
  have hfilter2 : (lines ++ [(⟨P, 2, pr1⟩ : OrderLine)]).filter
      (fun l => l.product_id == P) = [⟨P, 2, pr1⟩] := by
    rw [List.filter_append, hno]
    simp
  have hstep2 : add_to_cart_lines (lines ++ [⟨P, 2, pr1⟩]) P 3 pr2 =
      lines ++ [⟨P, 5, pr1⟩] := by
    rw [add_to_cart_lines, if_neg (by rw [hfilter2]; simp)]
    rw [incFirstLine_append_of_no_match hall]
    norm_num [incFirstLine]
  refine ⟨by rw [hstep1, hstep2], ?_⟩
  rw [hstep1, hstep2, List.filter_append, hno]
  simp

/-- Witness for C5 on a concrete one-line cart. -/
theorem C5_add_line_merges_witness :
    add_to_cart_lines (add_to_cart_lines [⟨9, 1, 4⟩] 7 2 10) 7 3 12 =
      [⟨9, 1, 4⟩, ⟨7, 5, 10⟩] ∧
    (add_to_cart_lines (add_to_cart_lines [⟨9, 1, 4⟩] 7 2 10) 7 3 12).filter
      (fun l => l.product_id == 7) = [⟨7, 5, 10⟩] :=
  C5_add_line_merges [⟨9, 1, 4⟩] 7 10 12 (by decide)

/-- C6 counterexample: `update_cart_line` with quantity 0 does not behave
like removal — the line is kept with quantity 0, while `remove=True`
deletes it. -/
theorem C6_zero_qty_counterexample :
    update_cart_line [⟨1, 7, 5, 10⟩] 1 (some 0) false = .ok [⟨1, 7, 0, 10⟩] ∧
    update_cart_line [⟨1, 7, 5, 10⟩] 1 none true = .ok [] ∧
    ([(⟨1, 7, 0, 10⟩ : CartLine)] : List CartLine) ≠ [] := by
  refine ⟨rfl, rfl, by decide⟩

/-- C6 amended: passing a quantity `q <= 0` to `update_cart_line` (with
`remove=False`) is not equivalent to removal: the call succeeds, the number
of lines is unchanged, and the addressed line is retained with the
non-positive quantity written onto it. -/
theorem C6_set_qty_retains_line (lines : List CartLine) (lineId : Nat) (q : Int)
    (_hq : q ≤ 0) (hmem : ∃ l ∈ lines, l.id = lineId) :
    ∃ ls, update_cart_line lines lineId (some q) false = Except.ok ls ∧
      ls.length = lines.length ∧
      ∃ l ∈ ls, l.id = lineId ∧ l.product_uom_qty = q := by
  obtain ⟨l0, hl0, hid⟩ := hmem
  have hmemf : l0 ∈ lines.filter (fun l => l.id == lineId) :=
    List.mem_filter.mpr ⟨hl0, by simp [hid]⟩
  have hne : (lines.filter (fun l => l.id == lineId)).isEmpty = false := by
    cases hfe : (lines.filter (fun l => l.id == lineId)).isEmpty
    · rfl
    · rw [List.isEmpty_iff] at hfe
      rw [hfe] at hmemf
      simp at hmemf
  rw [update_cart_line, if_neg (by simp [hne]), if_neg (by simp)]
  refine ⟨_, rfl, by simp, ?_⟩
  refine ⟨if l0.id = lineId then { l0 with product_uom_qty := q } else l0,
    List.mem_map_of_mem _ hl0, ?_⟩
  rw [if_pos hid]
  exact ⟨hid, rfl⟩

/-- Witness for C6 amended on a concrete cart. -/
theorem C6_set_qty_retains_line_witness :
    ∃ ls, update_cart_line [⟨1, 7, 5, 10⟩] 1 (some 0) false = Except.ok ls ∧
      ls.length = 1 ∧ ∃ l ∈ ls, l.id = 1 ∧ l.product_uom_qty = 0 :=
  C6_set_qty_retains_line [⟨1, 7, 5, 10⟩] 1 0 (by decide) ⟨⟨1, 7, 5, 10⟩, by decide, rfl⟩

theorem carrier_step_partner (o : CheckoutOrder) (cid : Option Nat) (ce : Nat → Bool)
    (cp : Nat → Int) : (carrier_step o cid ce cp).partner_id = o.partner_id := by
  cases cid with
  | none => rfl
  | some c =>
      by_cases h : ce c <;> simp [carrier_step, set_delivery_line, h]

theorem carrier_step_state (o : CheckoutOrder) (cid : Option Nat) (ce : Nat → Bool)
    (cp : Nat → Int) : (carrier_step o cid ce cp).state = o.state := by
  cases cid with
  | none => rfl
  | some c =>
      by_cases h : ce c <;> simp [carrier_step, set_delivery_line, h]

theorem carrier_step_lines (o : CheckoutOrder) (cid : Option Nat) (ce : Nat → Bool)
    (cp : Nat → Int) : (carrier_step o cid ce cp).order_line = o.order_line := by
  cases cid with
  | none => rfl
  | some c =>
      by_cases h : ce c <;> simp [carrier_step, set_delivery_line, h]

/-- Unfolding of `confirm_checkout` on a draft session order with a website
present. -/
theorem confirm_checkout_draft (o : CheckoutOrder) (cid : Option Nat) (ce : Nat → Bool)
    (cp : Nat → Int) (pub : Nat) (hdraft : o.state = OrderState.draft) :
    confirm_checkout true (some o) cid ce cp pub =
      if (carrier_step o cid ce cp).partner_id = none ∨
          (carrier_step o cid ce cp).partner_id = some pub then
        (.err "Please provide billing information", some (carrier_step o cid ce cp))
      else
        (.ok (action_confirm (carrier_step o cid ce cp)).id
           (action_confirm (carrier_step o cid ce cp)).name
           (action_confirm (carrier_step o cid ce cp)).amount_total,
         some (action_confirm (carrier_step o cid ce cp))) := by
  rw [confirm_checkout, if_neg (by simp)]
  show (if o.state ≠ OrderState.draft ∧ o.state ≠ OrderState.sent then
      (ConfirmResult.err "No valid cart", some o)
    else
      let o1 := carrier_step o cid ce cp
      if o1.partner_id = none ∨ o1.partner_id = some pub then
        (.err "Please provide billing information", some o1)
      else
        let o2 := action_confirm o1
        (.ok o2.id o2.name o2.amount_total, some o2)) = _
  rw [if_neg (by simp [hdraft])]

/-- C7 counterexample: the claim fails on the code in both directions. A
draft cart with zero lines and a valid billing partner is confirmed
successfully (no line-count precondition exists in `confirm_checkout`);
and when the billing check fails, a carrier posted with the same request
has already been written onto the cart, so the cart is not left
unmodified. -/
theorem C7_confirm_counterexample :
    (confirm_checkout true (some ⟨1, "S001", OrderState.draft, some 7, [], 0, none⟩)
        none (fun _ => false) (fun _ => 0) 4).1 = ConfirmResult.ok 1 "S001" 0 ∧
    (⟨1, "S001", OrderState.draft, some 7, [], 0, none⟩ : CheckoutOrder).order_line = [] ∧
    (confirm_checkout true (some ⟨2, "S002", OrderState.draft, none, [⟨5, 1, 10⟩], 10, none⟩)
        (some 9) (fun _ => true) (fun _ => 3) 4).1 =
      ConfirmResult.err "Please provide billing information" ∧
    (confirm_checkout true (some ⟨2, "S002", OrderState.draft, none, [⟨5, 1, 10⟩], 10, none⟩)
        (some 9) (fun _ => true) (fun _ => 3) 4).2 ≠
      some ⟨2, "S002", OrderState.draft, none, [⟨5, 1, 10⟩], 10, none⟩ := by
  refine ⟨rfl, rfl, rfl, by decide⟩

/-- C7 amended: on a draft cart, `confirm_checkout` fails (identifying the
billing condition) exactly when the billing partner is absent or the
public placeholder, and then the cart's state stays `draft` with its lines
untouched — though a carrier posted with the request has already been
applied. There is no zero-line precondition: with a valid billing partner
the confirmation succeeds regardless of the cart's lines (in particular
with zero lines). -/
theorem C7_confirm_behavior (o : CheckoutOrder) (cid : Option Nat) (ce : Nat → Bool)
    (cp : Nat → Int) (pub : Nat) (hdraft : o.state = OrderState.draft) :
    ((o.partner_id = none ∨ o.partner_id = some pub) →
      (confirm_checkout true (some o) cid ce cp pub).1 =
        ConfirmResult.err "Please provide billing information" ∧
      ∃ o1, (confirm_checkout true (some o) cid ce cp pub).2 = some o1 ∧
        o1.state = OrderState.draft ∧ o1.order_line = o.order_line) ∧
    (¬(o.partner_id = none ∨ o.partner_id = some pub) →
      ∃ o2, confirm_checkout true (some o) cid ce cp pub =
        (ConfirmResult.ok o2.id o2.name o2.amount_total, some o2) ∧
        o2.state = OrderState.sale) := by
  have hp1 := carrier_step_partner o cid ce cp
  constructor
  · intro hp
    rw [confirm_checkout_draft o cid ce cp pub hdraft, if_pos (by rw [hp1]; exact hp)]
    refine ⟨rfl, carrier_step o cid ce cp, rfl,
      by rw [carrier_step_state]; exact hdraft, carrier_step_lines o cid ce cp⟩
  · intro hp
    rw [confirm_checkout_draft o cid ce cp pub hdraft, if_neg (by rw [hp1]; exact hp)]
    exact ⟨action_confirm (carrier_step o cid ce cp), rfl, rfl⟩

/-- Witness for C7 amended: a zero-line draft cart without billing fails
with the billing message and stays draft; the same cart with a valid
partner confirms. -/
theorem C7_confirm_behavior_witness :
    ((confirm_checkout true (some ⟨3, "S003", OrderState.draft, none, [], 0, none⟩)
        none (fun _ => false) (fun _ => 0) 4).1 =
      ConfirmResult.err "Please provide billing information" ∧
      ∃ o1, (confirm_checkout true (some ⟨3, "S003", OrderState.draft, none, [], 0, none⟩)
        none (fun _ => false) (fun _ => 0) 4).2 = some o1 ∧
        o1.state = OrderState.draft ∧
        o1.order_line = (⟨3, "S003", OrderState.draft, none, [], 0, none⟩ : CheckoutOrder).order_line) ∧
    (∃ o2, confirm_checkout true (some ⟨3, "S003", OrderState.draft, some 7, [], 0, none⟩)
        none (fun _ => false) (fun _ => 0) 4 =
        (ConfirmResult.ok o2.id o2.name o2.amount_total, some o2) ∧
        o2.state = OrderState.sale) :=
  ⟨(C7_confirm_behavior ⟨3, "S003", OrderState.draft, none, [], 0, none⟩ none
      (fun _ => false) (fun _ => 0) 4 rfl).1 (Or.inl rfl),
   (C7_confirm_behavior ⟨3, "S003", OrderState.draft, some 7, [], 0, none⟩ none
      (fun _ => false) (fun _ => 0) 4 rfl).2 (by decide)⟩

/-- C8 counterexample: re-confirming an already confirmed cart is not a
no-op success — both confirm endpoints return an error for a cart in the
confirmed state `sale`. -/
theorem C8_reconfirm_counterexample :
    (confirm_checkout true (some ⟨1, "S001", OrderState.sale, some 7, [⟨5, 1, 10⟩], 50, none⟩)
        none (fun _ => false) (fun _ => 0) 4).1 = ConfirmResult.err "No valid cart" ∧
    (api_confirm_checkout (some ⟨1, "S001", OrderState.sale, some 7, [⟨5, 1, 10⟩], 50, none⟩)
        none (fun _ => false) (fun _ => 0)).1 = ConfirmResult.err "Invalid order state" := by
  refine ⟨rfl, rfl⟩

/-- C8 amended: calling either confirm endpoint on a cart whose state is
already `sale` (confirmed) returns an error (`No valid cart` /
`Invalid order state`) instead of a no-op success, and leaves the cart
unchanged. -/
theorem C8_reconfirm_is_error (o : CheckoutOrder) (cid : Option Nat) (ce : Nat → Bool)
    (cp : Nat → Int) (pub : Nat) (rs : Nat → Bool) (rp : Nat → Int)
    (hconf : o.state = OrderState.sale) :
    confirm_checkout true (some o) cid ce cp pub = (.err "No valid cart", some o) ∧
    api_confirm_checkout (some o) cid rs rp = (.err "Invalid order state", some o) := by
  constructor
  · rw [confirm_checkout, if_neg (by simp)]
    show (if o.state ≠ OrderState.draft ∧ o.state ≠ OrderState.sent then
        (ConfirmResult.err "No valid cart", some o)
      else _) = _
    rw [if_pos (by rw [hconf]; exact ⟨by simp, by simp⟩)]
  · rw [api_confirm_checkout]
    show (if o.state ≠ OrderState.draft then (ConfirmResult.err "Invalid order state", some o)
      else _) = _
    rw [if_pos (by rw [hconf]; simp)]

/-- Witness for C8 on a concrete confirmed cart. -/
theorem C8_reconfirm_is_error_witness :
    confirm_checkout true (some ⟨1, "S001", OrderState.sale, some 7, [], 50, none⟩)
        none (fun _ => false) (fun _ => 0) 4 =
      (.err "No valid cart", some ⟨1, "S001", OrderState.sale, some 7, [], 50, none⟩) ∧
    api_confirm_checkout (some ⟨1, "S001", OrderState.sale, some 7, [], 50, none⟩)
        none (fun _ => false) (fun _ => 0) =
      (.err "Invalid order state", some ⟨1, "S001", OrderState.sale, some 7, [], 50, none⟩) :=
  C8_reconfirm_is_error ⟨1, "S001", OrderState.sale, some 7, [], 50, none⟩
    none (fun _ => false) (fun _ => 0) 4 (fun _ => false) (fun _ => 0) rfl

/-- C9: `get_or_create_cart` is idempotent and preserves the at-most-one
draft cart invariant — the second call for the same partner returns the
same cart (same id) and the same store, and a store with at most one draft
cart for the partner still has at most one afterwards. -/
theorem C9_single_draft_cart (st : CartStore) (p u : Nat)
    (h : (draftCartsFor st p).length ≤ 1) :
    get_or_create_cart ((get_or_create_cart st p u).2) p u = get_or_create_cart st p u ∧
    (draftCartsFor ((get_or_create_cart st p u).2) p).length ≤ 1 := by
  rcases hfind : st.carts.find? (fun c => c.partner_id == p && c.state == OrderState.draft)
    with _ | c
  · have hget : get_or_create_cart st p u =
        (⟨st.next_id, p, u, OrderState.draft⟩,
         ⟨st.carts ++ [⟨st.next_id, p, u, OrderState.draft⟩], st.next_id + 1⟩) := by
      rw [get_or_create_cart, hfind]
    have hpred : (fun c => c.partner_id == p && c.state == OrderState.draft)
        (⟨st.next_id, p, u, OrderState.draft⟩ : DraftCart) = true := by simp
    have hfind2 : (st.carts ++ [(⟨st.next_id, p, u, OrderState.draft⟩ : DraftCart)]).find?
        (fun c => c.partner_id == p && c.state == OrderState.draft) =
        some ⟨st.next_id, p, u, OrderState.draft⟩ := by
      rw [List.find?_append, hfind]
      simp [List.find?_cons_of_pos _ hpred]
    have hfilter : st.carts.filter
        (fun c => c.partner_id == p && c.state == OrderState.draft) = [] :=
      List.filter_eq_nil_iff.mpr (List.find?_eq_none.mp hfind)
    constructor
    · rw [hget]
      show get_or_create_cart ⟨st.carts ++ [⟨st.next_id, p, u, OrderState.draft⟩],
        st.next_id + 1⟩ p u = _
      rw [get_or_create_cart]
      simp only [hfind2]
    · rw [hget]
      show (draftCartsFor ⟨st.carts ++ [⟨st.next_id, p, u, OrderState.draft⟩],
        st.next_id + 1⟩ p).length ≤ 1
      rw [draftCartsFor, List.filter_append, hfilter]
      simp [hpred]
  · have hget : get_or_create_cart st p u = (c, st) := by rw [get_or_create_cart, hfind]
    refine ⟨?_, ?_⟩
    · rw [hget]
      exact hget
    · rw [hget]
      exact h

/-- Witness for C9 starting from the empty store. -/
theorem C9_single_draft_cart_witness :
    get_or_create_cart ((get_or_create_cart ⟨[], 0⟩ 1 2).2) 1 2 =
      get_or_create_cart ⟨[], 0⟩ 1 2 ∧
    (draftCartsFor ((get_or_create_cart ⟨[], 0⟩ 1 2).2) 1).length ≤ 1 :=
  C9_single_draft_cart ⟨[], 0⟩ 1 2 (by decide)

/-- C10: the guest branch of `create_cart` always raises — the name
`request` is not defined in the `sale_order` module, so for every store and
website the call with no partner id returns the `NameError` and creates
neither a guest partner nor a cart. -/
theorem C10_create_cart_guest_raises :
    "request" ∉ saleOrderModuleGlobals ∧
    ∀ (websiteId : Nat) (st : SaleOrderStore),
      create_cart none websiteId st = Except.error PyError.nameError :=
  ⟨by decide, fun _ _ => rfl⟩
